import Mathlib

/-!
Verification of the air-cargo STRIPS planning core
(`my_air_cargo_problems.py`): state codec, schema grounding, the
applicability/transition/goal-test state machine and the heuristic
estimators, embedded shallowly and checked against the specification.
-/

namespace AirCargo

/-- An atomic proposition of the domain: `At(mobile, location)` or
`In(cargo, plane)`, compared structurally (mirrors aimacode `expr` terms). -/
inductive Fluent where
  | At (x loc : String)
  | In (c p : String)
deriving DecidableEq, Repr

/-- A pair of fluent lists, one per polarity (mirrors `lp_utils.FluentState`). -/
structure FluentState where
  pos : List Fluent
  neg : List Fluent
deriving DecidableEq, Repr

/-- The string rendering of a fluent used by the code:
Python `'{}{!s}'.format(_.op, _.args)`, i.e. the operator name followed by
the argument tuple. -/
def fluentStr : Fluent → String
  | .At x loc => "At(" ++ x ++ ", " ++ loc ++ ")"
  | .In c p => "In(" ++ c ++ ", " ++ p ++ ")"

/-- A grounded action record (mirrors aimacode `Action`): name, argument
tuple, positive and negative preconditions, add and delete effects. -/
structure Action where
  name : String
  args : List String
  precond_pos : List Fluent
  precond_neg : List Fluent
  effect_add : List Fluent
  effect_rem : List Fluent
deriving DecidableEq, Repr

/-- The rendering `'{}{!s}'.format(action.name, action.args)` used by
`result` to compare actions: the name together with the argument tuple. -/
def actionKey (a : Action) : String × List String := (a.name, a.args)

/-- Errors raised by the core. `InvalidActionError` carries the attempted
action and the currently enabled actions (the exception message in `result`
formats exactly these). `EncodingError` is the codec's coverage failure. -/
inductive PlanError where
  | EncodingError (fs : FluentState) (fluent_map : List Fluent)
  | InvalidActionError (attempted : Action) (enabled : List Action)
deriving DecidableEq, Repr

/-- Modelled from the spec: `lp_utils.encode_state` is not under `src/`.
"`encode(positive, negative, vocabulary) → vector`: for each vocabulary
position, true iff the fluent is in `positive`. Fails with `EncodingError`
if any vocabulary fluent is absent from both sets." -/
def encode_state (fs : FluentState) (fluent_map : List Fluent) :
    Except PlanError (List Bool) :=
  if fluent_map.all (fun f => decide (f ∈ fs.pos) || decide (f ∈ fs.neg)) then
    .ok (fluent_map.map (fun f => decide (f ∈ fs.pos)))
  else
    .error (.EncodingError fs fluent_map)

/-- Modelled from the spec: `lp_utils.decode_state` is not under `src/`.
"`decode(vector, vocabulary) → (positive, negative)`: partitions the
vocabulary by the vector's values." -/
def decode_state (state : List Bool) (fluent_map : List Fluent) : FluentState :=
  { pos := ((fluent_map.zip state).filter (fun fb => fb.2)).map Prod.fst
    neg := ((fluent_map.zip state).filter (fun fb => !fb.2)).map Prod.fst }

/-- The scenario data held by an `AirCargoProblem` instance. -/
structure AirCargoProblem where
  cargos : List String
  planes : List String
  airports : List String
  initial : FluentState
  goal : List Fluent
deriving Repr

/-- Constructor `AirCargoProblem.__init__`: stores the object lists, the initial fluent
partition and the goal; performs no validation of the inputs. -/
def mkAirCargoProblem (cargos planes airports : List String)
    (initial : FluentState) (goal : List Fluent) : AirCargoProblem :=
  { cargos := cargos, planes := planes, airports := airports
    initial := initial, goal := goal }

/-- Field `self.state_map = initial.pos + initial.neg`: the vocabulary. -/
def AirCargoProblem.state_map (p : AirCargoProblem) : List Fluent :=
  p.initial.pos ++ p.initial.neg

/-- Field `self.initial_state_TF = encode_state(initial, self.state_map)`. -/
def AirCargoProblem.initial_state_TF (p : AirCargoProblem) :
    Except PlanError (List Bool) :=
  encode_state p.initial p.state_map

/-- One grounded `Load(cargo, plane, airport)` action, exactly as built in
`load_actions`. -/
def loadAction (cargo plane airport : String) : Action :=
  { name := "Load", args := [cargo, plane, airport]
    precond_pos := [.At plane airport, .At cargo airport]
    precond_neg := []
    effect_add := [.In cargo plane]
    effect_rem := [.At cargo airport] }

/-- One grounded `Unload(cargo, plane, airport)` action, exactly as built in
`unload_actions`. -/
def unloadAction (cargo plane airport : String) : Action :=
  { name := "Unload", args := [cargo, plane, airport]
    precond_pos := [.At plane airport, .In cargo plane]
    precond_neg := []
    effect_add := [.At cargo airport]
    effect_rem := [.In cargo plane] }

/-- One grounded `Fly(plane, from, to)` action, exactly as built in
`fly_actions`. -/
def flyAction (plane fr dst : String) : Action :=
  { name := "Fly", args := [plane, fr, dst]
    precond_pos := [.At plane fr]
    precond_neg := []
    effect_add := [.At plane dst]
    effect_rem := [.At plane fr] }

/-- Mirror of `load_actions`: loops airport, then plane, then cargo. -/
def load_actions (p : AirCargoProblem) : List Action :=
  p.airports.flatMap (fun airport =>
    p.planes.flatMap (fun plane =>
      p.cargos.map (fun cargo => loadAction cargo plane airport)))

/-- Mirror of `unload_actions`: loops airport, then plane, then cargo. -/
def unload_actions (p : AirCargoProblem) : List Action :=
  p.airports.flatMap (fun airport =>
    p.planes.flatMap (fun plane =>
      p.cargos.map (fun cargo => unloadAction cargo plane airport)))

/-- Mirror of `fly_actions`: loops origin, destination (skipping equal pairs), plane. -/
def fly_actions (p : AirCargoProblem) : List Action :=
  p.airports.flatMap (fun fr =>
    p.airports.flatMap (fun dst =>
      if fr ≠ dst then p.planes.map (fun plane => flyAction plane fr dst)
      else []))

/-- Mirror of `get_actions`: `load_actions() + unload_actions() + fly_actions()`. -/
def AirCargoProblem.get_actions (p : AirCargoProblem) : List Action :=
  load_actions p ++ unload_actions p ++ fly_actions p

/-- Field `self.actions_list = self.get_actions()` (cached in the constructor). -/
def AirCargoProblem.actions_list (p : AirCargoProblem) : List Action :=
  p.get_actions

/-- Predicate `permissible(action, state)` from `AirCargoProblem.actions`: every
positive precondition is in the decoded positive set and every negative
precondition is in the decoded negative set. -/
def permissible (p : AirCargoProblem) (action : Action) (state : List Bool) :
    Bool :=
  action.precond_pos.all (fun f => decide (f ∈ (decode_state state p.state_map).pos)) &&
  action.precond_neg.all (fun f => decide (f ∈ (decode_state state p.state_map).neg))

/-- Mirror of `AirCargoProblem.actions`: the grounded action list filtered by
`permissible`. -/
def AirCargoProblem.actions (p : AirCargoProblem) (state : List Bool) :
    List Action :=
  p.actions_list.filter (fun a => permissible p a state)

/-- Mirror of `AirCargoProblem.result`: compares the rendering of the passed action's
name and args against the renderings of the enabled actions; on a match it
applies the passed action's effect lists to the decoded state and re-encodes,
otherwise it raises, reporting the attempted action and the enabled actions. -/
def AirCargoProblem.result (p : AirCargoProblem) (state : List Bool)
    (action : Action) : Except PlanError (List Bool) :=
  let enabled := p.actions state
  let decoded := decode_state state p.state_map
  if actionKey action ∈ enabled.map actionKey then
    encode_state
      { pos := decoded.pos.filter (fun f => decide (f ∉ action.effect_rem)) ++
          action.effect_add
        neg := decoded.neg.filter (fun f => decide (f ∉ action.effect_add)) ++
          action.effect_rem }
      p.state_map
  else
    .error (.InvalidActionError action enabled)

/-- Mirror of `AirCargoProblem.goal_test`: each goal clause must be among the decoded
positive fluents (the `PropKB` fact store, an external collaborator, is
modelled from the spec as membership in the asserted positive literals). -/
def AirCargoProblem.goal_test (p : AirCargoProblem) (state : List Bool) :
    Bool :=
  p.goal.all (fun clause => decide (clause ∈ (decode_state state p.state_map).pos))

/-- Mirror of `h_1`: the constant-1 heuristic. -/
def AirCargoProblem.h_1 (_p : AirCargoProblem) (_state : List Bool) : Nat := 1

/-- Mirror of `h_ignore_preconditions`: the size of the intersection of the set of
string renderings of the decoded negative fluents with the set of string
renderings of the goal fluents. -/
def AirCargoProblem.h_ignore_preconditions (p : AirCargoProblem)
    (state : List Bool) : Nat :=
  ((((decode_state state p.state_map).neg.map fluentStr).dedup).filter
    (fun s => decide (s ∈ (p.goal.map fluentStr).dedup))).length

/-- The `air_cargo_p1` scenario builder. -/
def air_cargo_p1 : AirCargoProblem :=
  mkAirCargoProblem ["C1", "C2"] ["P1", "P2"] ["JFK", "SFO"]
    { pos := [.At "C1" "SFO", .At "C2" "JFK", .At "P1" "SFO", .At "P2" "JFK"]
      neg := [.At "C1" "JFK", .At "C2" "SFO", .At "P1" "JFK", .At "P2" "SFO",
              .In "C1" "P1", .In "C1" "P2", .In "C2" "P1", .In "C2" "P2"] }
    [.At "C1" "JFK", .At "C2" "SFO"]

/-- The 6-action P1 plan from the spec:
Load(C1,P1,SFO), Fly(P1,SFO,JFK), Unload(C1,P1,JFK),
Load(C2,P2,JFK), Fly(P2,JFK,SFO), Unload(C2,P2,SFO). -/
def p1_plan : List Action :=
  [loadAction "C1" "P1" "SFO", flyAction "P1" "SFO" "JFK",
   unloadAction "C1" "P1" "JFK", loadAction "C2" "P2" "JFK",
   flyAction "P2" "JFK" "SFO", unloadAction "C2" "P2" "SFO"]

/-- P1's initial state vector (TTTTFFFFFFFF over the 12-fluent vocabulary). -/
def p1_s0 : List Bool :=
  [true, true, true, true, false, false, false, false, false, false, false, false]

/-- P1 state after Load(C1,P1,SFO). -/
def p1_s1 : List Bool :=
  [false, true, true, true, false, false, false, false, true, false, false, false]

/-- P1 state after Fly(P1,SFO,JFK). -/
def p1_s2 : List Bool :=
  [false, true, false, true, false, false, true, false, true, false, false, false]

/-- P1 state after Unload(C1,P1,JFK). -/
def p1_s3 : List Bool :=
  [false, true, false, true, true, false, true, false, false, false, false, false]

/-- P1 state after Load(C2,P2,JFK). -/
def p1_s4 : List Bool :=
  [false, false, false, true, true, false, true, false, false, false, false, true]

/-- P1 state after Fly(P2,JFK,SFO). -/
def p1_s5 : List Bool :=
  [false, false, false, false, true, false, true, true, false, false, false, true]

/-- P1 state after Unload(C2,P2,SFO). -/
def p1_s6 : List Bool :=
  [false, false, false, false, true, true, true, true, false, false, false, false]

/-- An action object that is not one of the scenario's grounded actions but
renders to the same (name, args) pair as the grounded Load(C1,P1,SFO): its
effect lists are empty. Used to exhibit the string-matching behaviour of
`result`. -/
def impostorLoad : Action :=
  { name := "Load", args := ["C1", "P1", "SFO"]
    precond_pos := [], precond_neg := [], effect_add := [], effect_rem := [] }

/-- A fluent partition is a disjoint, exhaustive partition of a vocabulary:
both sides are drawn from the vocabulary and every vocabulary fluent lies in
exactly one side. -/
def IsPartitionOf (fs : FluentState) (vocab : List Fluent) : Prop :=
  (∀ f ∈ fs.pos, f ∈ vocab) ∧ (∀ f ∈ fs.neg, f ∈ vocab) ∧
  (∀ f ∈ vocab, (f ∈ fs.pos ∧ f ∉ fs.neg) ∨ (f ∈ fs.neg ∧ f ∉ fs.pos))

/-- Decidable equality for `Except` values, so that concrete runs of the
transition model can be checked by evaluation. -/
instance instDecEqExcept {ε α : Type} [DecidableEq ε] [DecidableEq α] :
    DecidableEq (Except ε α) := fun x y =>
  match x, y with
  | .ok a, .ok b =>
    if h : a = b then .isTrue (by rw [h]) else .isFalse (by simp [h])
  | .error e, .error e' =>
    if h : e = e' then .isTrue (by rw [h]) else .isFalse (by simp [h])
  | .ok _, .error _ => .isFalse (by simp)
  | .error _, .ok _ => .isFalse (by simp)

/-! ### Helper lemmas -/

theorem mem_actions (p : AirCargoProblem) (s : List Bool) (a : Action) :
    a ∈ p.actions s ↔
      a ∈ p.actions_list ∧
      (∀ f ∈ a.precond_pos, f ∈ (decode_state s p.state_map).pos) ∧
      (∀ f ∈ a.precond_neg, f ∈ (decode_state s p.state_map).neg) := by
  simp [AirCargoProblem.actions, List.mem_filter, permissible, List.all_eq_true,
    Bool.and_eq_true, decide_eq_true_eq, and_assoc]

theorem decode_state_cons (b : Bool) (s : List Bool) (f : Fluent)
    (vocab : List Fluent) :
    decode_state (b :: s) (f :: vocab) =
      if b then
        { pos := f :: (decode_state s vocab).pos
          neg := (decode_state s vocab).neg }
      else
        { pos := (decode_state s vocab).pos
          neg := f :: (decode_state s vocab).neg } := by
  cases b <;> simp [decode_state]

theorem decode_cover (s : List Bool) (vocab : List Fluent)
    (hlen : vocab.length ≤ s.length) :
    ∀ f ∈ vocab,
      f ∈ (decode_state s vocab).pos ∨ f ∈ (decode_state s vocab).neg := by
  induction vocab generalizing s with
  | nil => intro f hf; cases hf
  | cons g vocab ih =>
    intro f hf
    cases s with
    | nil => simp at hlen
    | cons b s =>
      have hlen' : vocab.length ≤ s.length := by
        simpa [Nat.succ_le_succ_iff] using hlen
      rcases List.mem_cons.mp hf with rfl | hf'
      · cases b <;> simp [decode_state_cons]
      · rcases ih s hlen' f hf' with h | h <;>
          cases b <;> simp [decode_state_cons, h]

theorem decode_pos_subset (s : List Bool) (vocab : List Fluent) :
    ∀ f ∈ (decode_state s vocab).pos, f ∈ vocab := by
  intro f hf
  simp only [decode_state, List.mem_map, List.mem_filter] at hf
  obtain ⟨⟨g, b⟩, ⟨hmem, _⟩, rfl⟩ := hf
  exact (List.of_mem_zip hmem).1

theorem decode_neg_subset (s : List Bool) (vocab : List Fluent) :
    ∀ f ∈ (decode_state s vocab).neg, f ∈ vocab := by
  intro f hf
  simp only [decode_state, List.mem_map, List.mem_filter] at hf
  obtain ⟨⟨g, b⟩, ⟨hmem, _⟩, rfl⟩ := hf
  exact (List.of_mem_zip hmem).1

theorem encode_state_ok (fs : FluentState) (vocab : List Fluent)
    (hcov : ∀ f ∈ vocab, f ∈ fs.pos ∨ f ∈ fs.neg) :
    encode_state fs vocab =
      Except.ok (vocab.map (fun f => decide (f ∈ fs.pos))) := by
  unfold encode_state
  rw [if_pos]
  simp only [List.all_eq_true, Bool.or_eq_true, decide_eq_true_eq]
  exact hcov

theorem encode_state_ok_inv {fs : FluentState} {vocab : List Fluent}
    {t : List Bool} (h : encode_state fs vocab = Except.ok t) :
    t = vocab.map (fun f => decide (f ∈ fs.pos)) := by
  unfold encode_state at h
  by_cases hc : vocab.all (fun f => decide (f ∈ fs.pos) || decide (f ∈ fs.neg)) = true
  · rw [if_pos hc] at h
    injection h with h'
    exact h'.symm
  · rw [if_neg hc] at h
    cases h

theorem decode_state_map (g : Fluent → Bool) (vocab : List Fluent) :
    decode_state (vocab.map g) vocab =
      { pos := vocab.filter g, neg := vocab.filter (fun f => !g f) } := by
  induction vocab with
  | nil => simp [decode_state]
  | cons f vocab ih =>
    cases hg : g f <;>
      simp [decode_state_cons, ih, List.filter_cons, hg]

/-! ### Claim theorems -/

theorem result_eq_of_key_mem (p : AirCargoProblem) (s : List Bool) (a : Action)
    (hk : actionKey a ∈ (p.actions s).map actionKey) :
    p.result s a =
      encode_state
        { pos := (decode_state s p.state_map).pos.filter
            (fun f => decide (f ∉ a.effect_rem)) ++ a.effect_add
          neg := (decode_state s p.state_map).neg.filter
            (fun f => decide (f ∉ a.effect_add)) ++ a.effect_rem }
        p.state_map := by
  simp only [AirCargoProblem.result]
  rw [if_pos hk]

theorem result_error_of_key_not_mem (p : AirCargoProblem) (s : List Bool)
    (a : Action) (hk : actionKey a ∉ (p.actions s).map actionKey) :
    p.result s a = Except.error (.InvalidActionError a (p.actions s)) := by
  simp only [AirCargoProblem.result]
  rw [if_neg hk]

theorem new_state_cover (p : AirCargoProblem) (s : List Bool) (a : Action)
    (hlen : p.state_map.length ≤ s.length) :
    ∀ f ∈ p.state_map,
      f ∈ (decode_state s p.state_map).pos.filter
            (fun f => decide (f ∉ a.effect_rem)) ++ a.effect_add ∨
      f ∈ (decode_state s p.state_map).neg.filter
            (fun f => decide (f ∉ a.effect_add)) ++ a.effect_rem := by
  intro f hf
  rcases decode_cover s p.state_map hlen f hf with hpos | hneg
  · by_cases hrem : f ∈ a.effect_rem
    · right
      simp [List.mem_append, hrem]
    · left
      simp [List.mem_append, List.mem_filter, hpos, hrem]
  · by_cases hadd : f ∈ a.effect_add
    · left
      simp [List.mem_append, hadd]
    · right
      simp [List.mem_append, List.mem_filter, hneg, hadd]

theorem result_ok_of_enabled (p : AirCargoProblem) (s : List Bool) (a : Action)
    (hlen : p.state_map.length ≤ s.length) (ha : a ∈ p.actions s) :
    p.result s a =
      Except.ok (p.state_map.map (fun f =>
        decide (f ∈ (decode_state s p.state_map).pos.filter
          (fun f => decide (f ∉ a.effect_rem)) ++ a.effect_add))) := by
  have hk : actionKey a ∈ (p.actions s).map actionKey :=
    List.mem_map.mpr ⟨a, ha, rfl⟩
  rw [result_eq_of_key_mem p s a hk]
  exact encode_state_ok _ _ (new_state_cover p s a hlen)

/-- C1: for every state s, actions(s) returns exactly those grounded actions
of the scenario whose positive preconditions all lie in decode(s).positive
and whose negative preconditions all lie in decode(s).negative (membership in
the explicit tracked-negative set). -/
theorem actions_exactly_applicable (p : AirCargoProblem) (s : List Bool)
    (a : Action) :
    a ∈ p.actions s ↔
      a ∈ p.actions_list ∧
      (∀ f ∈ a.precond_pos, f ∈ (decode_state s p.state_map).pos) ∧
      (∀ f ∈ a.precond_neg, f ∈ (decode_state s p.state_map).neg) :=
  mem_actions p s a

/-- C5: goal_test(s) is true iff every fluent of the scenario's goal list is
a member of decode(s).positive — pure set membership. -/
theorem goal_test_iff_membership (p : AirCargoProblem) (s : List Bool) :
    p.goal_test s = true ↔ ∀ f ∈ p.goal, f ∈ (decode_state s p.state_map).pos := by
  simp [AirCargoProblem.goal_test, List.all_eq_true, decide_eq_true_eq]

/-- C6: on scenario P1, each action of the 6-step plan is enabled in the
state it is applied to, the full sequence drives the initial state to a state
satisfying goal_test, and goal_test is false on the state reached by every
proper prefix of the sequence. -/
theorem p1_plan_solves_p1 :
    air_cargo_p1.initial_state_TF = Except.ok p1_s0 ∧
    p1_plan = [loadAction "C1" "P1" "SFO", flyAction "P1" "SFO" "JFK",
      unloadAction "C1" "P1" "JFK", loadAction "C2" "P2" "JFK",
      flyAction "P2" "JFK" "SFO", unloadAction "C2" "P2" "SFO"] ∧
    (loadAction "C1" "P1" "SFO" ∈ air_cargo_p1.actions p1_s0 ∧
      air_cargo_p1.result p1_s0 (loadAction "C1" "P1" "SFO") = Except.ok p1_s1) ∧
    (flyAction "P1" "SFO" "JFK" ∈ air_cargo_p1.actions p1_s1 ∧
      air_cargo_p1.result p1_s1 (flyAction "P1" "SFO" "JFK") = Except.ok p1_s2) ∧
    (unloadAction "C1" "P1" "JFK" ∈ air_cargo_p1.actions p1_s2 ∧
      air_cargo_p1.result p1_s2 (unloadAction "C1" "P1" "JFK") = Except.ok p1_s3) ∧
    (loadAction "C2" "P2" "JFK" ∈ air_cargo_p1.actions p1_s3 ∧
      air_cargo_p1.result p1_s3 (loadAction "C2" "P2" "JFK") = Except.ok p1_s4) ∧
    (flyAction "P2" "JFK" "SFO" ∈ air_cargo_p1.actions p1_s4 ∧
      air_cargo_p1.result p1_s4 (flyAction "P2" "JFK" "SFO") = Except.ok p1_s5) ∧
    (unloadAction "C2" "P2" "SFO" ∈ air_cargo_p1.actions p1_s5 ∧
      air_cargo_p1.result p1_s5 (unloadAction "C2" "P2" "SFO") = Except.ok p1_s6) ∧
    air_cargo_p1.goal_test p1_s0 = false ∧
    air_cargo_p1.goal_test p1_s1 = false ∧
    air_cargo_p1.goal_test p1_s2 = false ∧
    air_cargo_p1.goal_test p1_s3 = false ∧
    air_cargo_p1.goal_test p1_s4 = false ∧
    air_cargo_p1.goal_test p1_s5 = false ∧
    air_cargo_p1.goal_test p1_s6 = true := by
  decide

theorem partition_filter (vocab : List Fluent) (g : Fluent → Bool) :
    IsPartitionOf { pos := vocab.filter g, neg := vocab.filter (fun f => !g f) }
      vocab := by
  refine ⟨fun f hf => (List.mem_filter.mp hf).1,
    fun f hf => (List.mem_filter.mp hf).1, ?_⟩
  intro f hf
  cases hg : g f with
  | true =>
    left
    refine ⟨List.mem_filter.mpr ⟨hf, hg⟩, fun hc => ?_⟩
    have h2 := (List.mem_filter.mp hc).2
    simp [hg] at h2
  | false =>
    right
    refine ⟨List.mem_filter.mpr ⟨hf, by simp [hg]⟩, fun hc => ?_⟩
    have h2 := (List.mem_filter.mp hc).2
    simp [hg] at h2

/-- C2: for every state s (a vector parallel to the vocabulary) and every
action a enabled in s, result(s, a) returns the encoding over the same
vocabulary of the partition whose positive side is
(decode(s).positive minus the delete effects) union the add effects and whose
negative side is (decode(s).negative minus the add effects) union the delete
effects. -/
theorem result_applies_effects (p : AirCargoProblem) (s : List Bool)
    (a : Action) (hlen : s.length = p.state_map.length) (ha : a ∈ p.actions s) :
    ∃ t, p.result s a = Except.ok t ∧
      encode_state
        { pos := (decode_state s p.state_map).pos.filter
            (fun f => decide (f ∉ a.effect_rem)) ++ a.effect_add
          neg := (decode_state s p.state_map).neg.filter
            (fun f => decide (f ∉ a.effect_add)) ++ a.effect_rem }
        p.state_map = Except.ok t ∧
      (∀ f, f ∈ (decode_state s p.state_map).pos.filter
            (fun f => decide (f ∉ a.effect_rem)) ++ a.effect_add ↔
          (f ∈ (decode_state s p.state_map).pos ∧ f ∉ a.effect_rem) ∨
            f ∈ a.effect_add) ∧
      (∀ f, f ∈ (decode_state s p.state_map).neg.filter
            (fun f => decide (f ∉ a.effect_add)) ++ a.effect_rem ↔
          (f ∈ (decode_state s p.state_map).neg ∧ f ∉ a.effect_add) ∨
            f ∈ a.effect_rem) := by
  have hlen' : p.state_map.length ≤ s.length := le_of_eq hlen.symm
  refine ⟨_, result_ok_of_enabled p s a hlen' ha, ?_, ?_, ?_⟩
  · rw [← result_eq_of_key_mem p s a (List.mem_map.mpr ⟨a, ha, rfl⟩)]
    exact result_ok_of_enabled p s a hlen' ha
  · intro f
    simp [List.mem_append, List.mem_filter]
  · intro f
    simp [List.mem_append, List.mem_filter]

/-- C2 witness: instantiated on P1's initial state and Load(C1,P1,SFO). -/
theorem result_applies_effects_witness :
    ∃ t, air_cargo_p1.result p1_s0 (loadAction "C1" "P1" "SFO") = Except.ok t ∧
      encode_state
        { pos := (decode_state p1_s0 air_cargo_p1.state_map).pos.filter
            (fun f => decide (f ∉ (loadAction "C1" "P1" "SFO").effect_rem)) ++
            (loadAction "C1" "P1" "SFO").effect_add
          neg := (decode_state p1_s0 air_cargo_p1.state_map).neg.filter
            (fun f => decide (f ∉ (loadAction "C1" "P1" "SFO").effect_add)) ++
            (loadAction "C1" "P1" "SFO").effect_rem }
        air_cargo_p1.state_map = Except.ok t ∧
      (∀ f, f ∈ (decode_state p1_s0 air_cargo_p1.state_map).pos.filter
            (fun f => decide (f ∉ (loadAction "C1" "P1" "SFO").effect_rem)) ++
            (loadAction "C1" "P1" "SFO").effect_add ↔
          (f ∈ (decode_state p1_s0 air_cargo_p1.state_map).pos ∧
              f ∉ (loadAction "C1" "P1" "SFO").effect_rem) ∨
            f ∈ (loadAction "C1" "P1" "SFO").effect_add) ∧
      (∀ f, f ∈ (decode_state p1_s0 air_cargo_p1.state_map).neg.filter
            (fun f => decide (f ∉ (loadAction "C1" "P1" "SFO").effect_add)) ++
            (loadAction "C1" "P1" "SFO").effect_rem ↔
          (f ∈ (decode_state p1_s0 air_cargo_p1.state_map).neg ∧
              f ∉ (loadAction "C1" "P1" "SFO").effect_add) ∨
            f ∈ (loadAction "C1" "P1" "SFO").effect_rem) :=
  result_applies_effects air_cargo_p1 p1_s0 (loadAction "C1" "P1" "SFO")
    (by decide) (by decide)

/-- C4: for every state s whose decoding is a disjoint, exhaustive partition
of the vocabulary and every enabled action a, the decoding of result(s, a) is
again a disjoint, exhaustive partition of the vocabulary. -/
theorem result_preserves_partition (p : AirCargoProblem) (s : List Bool)
    (a : Action) (t : List Bool)
    (hpart : IsPartitionOf (decode_state s p.state_map) p.state_map)
    (ha : a ∈ p.actions s) (ht : p.result s a = Except.ok t) :
    IsPartitionOf (decode_state t p.state_map) p.state_map := by
  have hk : actionKey a ∈ (p.actions s).map actionKey :=
    List.mem_map.mpr ⟨a, ha, rfl⟩
  rw [result_eq_of_key_mem p s a hk] at ht
  have htval := encode_state_ok_inv ht
  subst htval
  rw [decode_state_map]
  exact partition_filter _ _

/-- C4 witness: instantiated on P1's initial state and Load(C1,P1,SFO),
whose successor is p1_s1. -/
theorem result_preserves_partition_witness :
    IsPartitionOf (decode_state p1_s1 air_cargo_p1.state_map)
      air_cargo_p1.state_map :=
  result_preserves_partition air_cargo_p1 p1_s0 (loadAction "C1" "P1" "SFO")
    p1_s1 (by unfold IsPartitionOf; decide) (by decide) (by decide)

/-- C9 counterexample: the claim says construction fails with
MalformedScenarioError whenever a fluent is present in both initial polarity
sets; at this concrete input — At(C1,SFO) in both sets — construction does
nothing of the sort: it succeeds, and the initial state is encoded normally
(the duplicated fluent occupies two vocabulary slots, both encoded true). -/
theorem construction_accepts_overlap :
    (mkAirCargoProblem [] [] [] { pos := [.At "C1" "SFO"], neg := [.At "C1" "SFO"] }
        []).initial_state_TF = Except.ok [true, true] := by
  decide

/-- C9 amended: the constructor performs no validation at all: for every
input — including one where a fluent is present in both polarity sets — it
returns a problem instance whose initial_state_TF encodes the concatenated
vocabulary by membership in the positive set (so no MalformedScenarioError is
ever raised). -/
theorem construction_never_validates (cargos planes airports : List String)
    (initial : FluentState) (goal : List Fluent) :
    (mkAirCargoProblem cargos planes airports initial goal).initial_state_TF =
      Except.ok ((initial.pos ++ initial.neg).map
        (fun f => decide (f ∈ initial.pos))) := by
  have hcov : ∀ f ∈ initial.pos ++ initial.neg,
      f ∈ initial.pos ∨ f ∈ initial.neg := fun f hf => List.mem_append.mp hf
  exact encode_state_ok initial _ hcov

theorem mem_load_actions (p : AirCargoProblem) (a : Action) :
    a ∈ load_actions p ↔ ∃ ap ∈ p.airports, ∃ pl ∈ p.planes, ∃ c ∈ p.cargos,
      a = loadAction c pl ap := by
  simp [load_actions, List.mem_flatMap, List.mem_map, eq_comm]

theorem mem_unload_actions (p : AirCargoProblem) (a : Action) :
    a ∈ unload_actions p ↔ ∃ ap ∈ p.airports, ∃ pl ∈ p.planes, ∃ c ∈ p.cargos,
      a = unloadAction c pl ap := by
  simp [unload_actions, List.mem_flatMap, List.mem_map, eq_comm]

theorem mem_fly_actions (p : AirCargoProblem) (a : Action) :
    a ∈ fly_actions p ↔ ∃ fr ∈ p.airports, ∃ dst ∈ p.airports, fr ≠ dst ∧
      ∃ pl ∈ p.planes, a = flyAction pl fr dst := by
  simp [fly_actions, List.mem_flatMap, List.mem_map, eq_comm]

theorem actionKey_inj_on (p : AirCargoProblem) {a b : Action}
    (ha : a ∈ p.get_actions) (hb : b ∈ p.get_actions)
    (hk : actionKey a = actionKey b) : a = b := by
  simp only [AirCargoProblem.get_actions, List.mem_append] at ha hb
  rcases ha with (ha | ha) | ha
  · rw [mem_load_actions] at ha
    obtain ⟨ap1, _, pl1, _, c1, _, rfl⟩ := ha
    rcases hb with (hb | hb) | hb
    · rw [mem_load_actions] at hb
      obtain ⟨ap2, _, pl2, _, c2, _, rfl⟩ := hb
      simp only [actionKey, loadAction, Prod.mk.injEq, List.cons.injEq,
        and_true] at hk
      obtain ⟨_, h1, h2, h3⟩ := hk
      subst h1; subst h2; subst h3; rfl
    · rw [mem_unload_actions] at hb
      obtain ⟨ap2, _, pl2, _, c2, _, rfl⟩ := hb
      simp [actionKey, loadAction, unloadAction] at hk
    · rw [mem_fly_actions] at hb
      obtain ⟨fr, _, dst, _, hne, pl2, _, rfl⟩ := hb
      simp [actionKey, loadAction, flyAction] at hk
  · rw [mem_unload_actions] at ha
    obtain ⟨ap1, _, pl1, _, c1, _, rfl⟩ := ha
    rcases hb with (hb | hb) | hb
    · rw [mem_load_actions] at hb
      obtain ⟨ap2, _, pl2, _, c2, _, rfl⟩ := hb
      simp [actionKey, loadAction, unloadAction] at hk
    · rw [mem_unload_actions] at hb
      obtain ⟨ap2, _, pl2, _, c2, _, rfl⟩ := hb
      simp only [actionKey, unloadAction, Prod.mk.injEq, List.cons.injEq,
        and_true] at hk
      obtain ⟨_, h1, h2, h3⟩ := hk
      subst h1; subst h2; subst h3; rfl
    · rw [mem_fly_actions] at hb
      obtain ⟨fr, _, dst, _, hne, pl2, _, rfl⟩ := hb
      simp [actionKey, unloadAction, flyAction] at hk
  · rw [mem_fly_actions] at ha
    obtain ⟨fr1, _, dst1, _, hne1, pl1, _, rfl⟩ := ha
    rcases hb with (hb | hb) | hb
    · rw [mem_load_actions] at hb
      obtain ⟨ap2, _, pl2, _, c2, _, rfl⟩ := hb
      simp [actionKey, loadAction, flyAction] at hk
    · rw [mem_unload_actions] at hb
      obtain ⟨ap2, _, pl2, _, c2, _, rfl⟩ := hb
      simp [actionKey, unloadAction, flyAction] at hk
    · rw [mem_fly_actions] at hb
      obtain ⟨fr2, _, dst2, _, hne2, pl2, _, rfl⟩ := hb
      simp only [actionKey, flyAction, Prod.mk.injEq, List.cons.injEq,
        and_true] at hk
      obtain ⟨_, h1, h2, h3⟩ := hk
      subst h1; subst h2; subst h3; rfl

/-- C3: for every state s and every grounded action a of the scenario:
if a is enabled in s then result(s, a) succeeds, and if a is not enabled in s
then result(s, a) fails with InvalidActionError reporting the attempted
action and the currently enabled actions. -/
theorem apply_soundness (p : AirCargoProblem) (s : List Bool) (a : Action)
    (hmem : a ∈ p.actions_list) (hlen : p.state_map.length ≤ s.length) :
    (a ∈ p.actions s → ∃ t, p.result s a = Except.ok t) ∧
    (a ∉ p.actions s →
      p.result s a =
        Except.error (.InvalidActionError a (p.actions s))) := by
  constructor
  · intro ha
    exact ⟨_, result_ok_of_enabled p s a hlen ha⟩
  · intro hna
    apply result_error_of_key_not_mem
    intro hk
    obtain ⟨b, hb, hkey⟩ := List.mem_map.mp hk
    have hb_list : b ∈ p.actions_list := ((mem_actions p s b).mp hb).1
    have hba : b = a := actionKey_inj_on p hb_list hmem hkey
    subst hba
    exact hna hb

/-- C3 witness: instantiated on P1's initial state and the grounded
Load(C1,P1,SFO). -/
theorem apply_soundness_witness :
    (loadAction "C1" "P1" "SFO" ∈ air_cargo_p1.actions p1_s0 →
      ∃ t, air_cargo_p1.result p1_s0 (loadAction "C1" "P1" "SFO") =
        Except.ok t) ∧
    (loadAction "C1" "P1" "SFO" ∉ air_cargo_p1.actions p1_s0 →
      air_cargo_p1.result p1_s0 (loadAction "C1" "P1" "SFO") =
        Except.error (.InvalidActionError (loadAction "C1" "P1" "SFO")
          (air_cargo_p1.actions p1_s0))) :=
  apply_soundness air_cargo_p1 p1_s0 (loadAction "C1" "P1" "SFO")
    (by decide) (by decide)

/-- C10: result(s, a) decides enabledness by comparing only the rendering of
a's name and argument tuple against those of the enabled actions: whenever
some enabled action has the same rendering as a, result(s, a) succeeds and
applies the effect lists of the passed object a itself — even when a is not
one of the scenario's grounded actions. -/
theorem result_matches_by_rendering (p : AirCargoProblem) (s : List Bool)
    (a : Action) (hlen : p.state_map.length ≤ s.length)
    (hmatch : ∃ b ∈ p.actions s, actionKey b = actionKey a) :
    p.result s a =
      Except.ok (p.state_map.map (fun f =>
        decide (f ∈ (decode_state s p.state_map).pos.filter
          (fun f => decide (f ∉ a.effect_rem)) ++ a.effect_add))) := by
  obtain ⟨b, hb, hkey⟩ := hmatch
  have hk : actionKey a ∈ (p.actions s).map actionKey :=
    List.mem_map.mpr ⟨b, hb, hkey⟩
  rw [result_eq_of_key_mem p s a hk]
  exact encode_state_ok _ _ (new_state_cover p s a hlen)

/-- C10 witness: `impostorLoad` is not a grounded action of P1 (its effect
lists are empty), yet it renders like Load(C1,P1,SFO), so result applies its
empty effects — leaving the state unchanged. -/
theorem result_matches_by_rendering_witness :
    impostorLoad ∉ air_cargo_p1.actions_list ∧
    air_cargo_p1.result p1_s0 impostorLoad =
      Except.ok (air_cargo_p1.state_map.map (fun f =>
        decide (f ∈ (decode_state p1_s0 air_cargo_p1.state_map).pos.filter
          (fun f => decide (f ∉ impostorLoad.effect_rem)) ++
          impostorLoad.effect_add))) :=
  ⟨by decide,
   result_matches_by_rendering air_cargo_p1 p1_s0 impostorLoad (by decide)
     ⟨loadAction "C1" "P1" "SFO", by decide, by decide⟩⟩

theorem sum_map_const {α : Type} (l : List α) (k : Nat) :
    (l.map (fun _ => k)).sum = l.length * k := by
  induction l with
  | nil => simp
  | cons a l ih => simp [ih, Nat.succ_mul, Nat.add_comm]

theorem sum_ite_ne (x : String) (k : Nat) :
    ∀ (l : List String), x ∈ l → l.Nodup →
      (l.map (fun y => if x ≠ y then k else 0)).sum = (l.length - 1) * k := by
  intro l
  induction l with
  | nil => intro hx; cases hx
  | cons a l ih =>
    intro hx hnd
    have hnd' : l.Nodup := (List.nodup_cons.mp hnd).2
    rcases List.mem_cons.mp hx with rfl | hx'
    · have ha : x ∉ l := (List.nodup_cons.mp hnd).1
      have hmap : l.map (fun y => if x ≠ y then k else 0) =
          l.map (fun _ => k) := by
        apply List.map_congr_left
        intro y hy
        have hne : x ≠ y := fun h => ha (h ▸ hy)
        simp [hne]
      rw [List.map_cons, List.sum_cons, if_neg (fun h => h rfl), hmap,
        sum_map_const, List.length_cons]
      simp
    · have hne : x ≠ a := by
        intro h
        subst h
        exact (List.nodup_cons.mp hnd).1 hx'
      have hpos : 1 ≤ l.length := List.length_pos.mpr (List.ne_nil_of_mem hx')
      obtain ⟨m, hm⟩ : ∃ m, l.length = m + 1 := ⟨l.length - 1, by omega⟩
      rw [List.map_cons, List.sum_cons, if_pos hne, ih hx' hnd',
        List.length_cons, hm]
      simp [Nat.succ_mul]
      ring

theorem load_actions_length (p : AirCargoProblem) :
    (load_actions p).length =
      p.airports.length * p.planes.length * p.cargos.length := by
  simp only [load_actions, List.length_flatMap, Function.comp_def,
    List.length_map, sum_map_const]
  ring

theorem unload_actions_length (p : AirCargoProblem) :
    (unload_actions p).length =
      p.airports.length * p.planes.length * p.cargos.length := by
  simp only [unload_actions, List.length_flatMap, Function.comp_def,
    List.length_map, sum_map_const]
  ring

theorem fly_actions_length (p : AirCargoProblem) (h : p.airports.Nodup) :
    (fly_actions p).length =
      p.planes.length * (p.airports.length * (p.airports.length - 1)) := by
  simp only [fly_actions, List.length_flatMap, Function.comp_def]
  have hinner : ∀ fr ∈ p.airports,
      (p.airports.map (fun dst =>
        (if fr ≠ dst then p.planes.map (fun pl => flyAction pl fr dst)
          else []).length)).sum = (p.airports.length - 1) * p.planes.length := by
    intro fr hfr
    have hstep : p.airports.map (fun dst =>
        (if fr ≠ dst then p.planes.map (fun pl => flyAction pl fr dst)
          else []).length) =
        p.airports.map (fun dst => if fr ≠ dst then p.planes.length else 0) := by
      apply List.map_congr_left
      intro dst _
      by_cases hc : fr ≠ dst
      · rw [if_pos hc, if_pos hc, List.length_map]
      · rw [if_neg hc, if_neg hc, List.length_nil]
    rw [hstep, sum_ite_ne fr p.planes.length p.airports hfr h]
  rw [List.map_congr_left hinner, sum_map_const]
  generalize p.airports.length - 1 = B
  ring

/-- C7: for every scenario with distinct airports and at least two of them,
the grounded action list contains exactly airports·planes·cargos Load
actions, the same number of Unload actions, and planes·airports·(airports−1)
Fly actions — 2·C·P·A + P·A·(A−1) in total — and consists exactly of the
schema instances, each carrying exactly the schema's preconditions and
effects. -/
theorem grounding_cardinality (p : AirCargoProblem)
    (hnodup : p.airports.Nodup) (hA : 2 ≤ p.airports.length) :
    (load_actions p).length =
      p.airports.length * p.planes.length * p.cargos.length ∧
    (unload_actions p).length =
      p.airports.length * p.planes.length * p.cargos.length ∧
    (fly_actions p).length =
      p.planes.length * (p.airports.length * (p.airports.length - 1)) ∧
    p.get_actions.length =
      2 * (p.cargos.length * p.planes.length * p.airports.length) +
        p.planes.length * (p.airports.length * (p.airports.length - 1)) ∧
    (∀ c pl ap, (loadAction c pl ap).precond_pos = [.At pl ap, .At c ap] ∧
      (loadAction c pl ap).precond_neg = [] ∧
      (loadAction c pl ap).effect_add = [.In c pl] ∧
      (loadAction c pl ap).effect_rem = [.At c ap]) ∧
    (∀ c pl ap, (unloadAction c pl ap).precond_pos = [.At pl ap, .In c pl] ∧
      (unloadAction c pl ap).precond_neg = [] ∧
      (unloadAction c pl ap).effect_add = [.At c ap] ∧
      (unloadAction c pl ap).effect_rem = [.In c pl]) ∧
    (∀ pl fr dst, (flyAction pl fr dst).precond_pos = [.At pl fr] ∧
      (flyAction pl fr dst).precond_neg = [] ∧
      (flyAction pl fr dst).effect_add = [.At pl dst] ∧
      (flyAction pl fr dst).effect_rem = [.At pl fr]) ∧
    (∀ a, a ∈ p.get_actions ↔
      (∃ ap ∈ p.airports, ∃ pl ∈ p.planes, ∃ c ∈ p.cargos,
        a = loadAction c pl ap) ∨
      (∃ ap ∈ p.airports, ∃ pl ∈ p.planes, ∃ c ∈ p.cargos,
        a = unloadAction c pl ap) ∨
      (∃ fr ∈ p.airports, ∃ dst ∈ p.airports, fr ≠ dst ∧
        ∃ pl ∈ p.planes, a = flyAction pl fr dst)) := by
  refine ⟨load_actions_length p, unload_actions_length p,
    fly_actions_length p hnodup, ?_, fun c pl ap => ⟨rfl, rfl, rfl, rfl⟩,
    fun c pl ap => ⟨rfl, rfl, rfl, rfl⟩,
    fun pl fr dst => ⟨rfl, rfl, rfl, rfl⟩, ?_⟩
  · simp only [AirCargoProblem.get_actions, List.length_append,
      load_actions_length, unload_actions_length,
      fly_actions_length p hnodup]
    generalize p.airports.length - 1 = B
    ring
  · intro a
    simp only [AirCargoProblem.get_actions, List.mem_append,
      mem_load_actions, mem_unload_actions, mem_fly_actions, or_assoc]

/-- C7 witness: instantiated on the P1 scenario (2 cargos, 2 planes,
2 airports: 8 Load, 8 Unload, 4 Fly, 20 actions total). -/
theorem grounding_cardinality_witness :
    (load_actions air_cargo_p1).length =
      air_cargo_p1.airports.length * air_cargo_p1.planes.length *
        air_cargo_p1.cargos.length ∧
    (unload_actions air_cargo_p1).length =
      air_cargo_p1.airports.length * air_cargo_p1.planes.length *
        air_cargo_p1.cargos.length ∧
    (fly_actions air_cargo_p1).length =
      air_cargo_p1.planes.length * (air_cargo_p1.airports.length *
        (air_cargo_p1.airports.length - 1)) ∧
    air_cargo_p1.get_actions.length =
      2 * (air_cargo_p1.cargos.length * air_cargo_p1.planes.length *
        air_cargo_p1.airports.length) +
        air_cargo_p1.planes.length * (air_cargo_p1.airports.length *
          (air_cargo_p1.airports.length - 1)) ∧
    (∀ c pl ap, (loadAction c pl ap).precond_pos = [.At pl ap, .At c ap] ∧
      (loadAction c pl ap).precond_neg = [] ∧
      (loadAction c pl ap).effect_add = [.In c pl] ∧
      (loadAction c pl ap).effect_rem = [.At c ap]) ∧
    (∀ c pl ap, (unloadAction c pl ap).precond_pos = [.At pl ap, .In c pl] ∧
      (unloadAction c pl ap).precond_neg = [] ∧
      (unloadAction c pl ap).effect_add = [.At c ap] ∧
      (unloadAction c pl ap).effect_rem = [.In c pl]) ∧
    (∀ pl fr dst, (flyAction pl fr dst).precond_pos = [.At pl fr] ∧
      (flyAction pl fr dst).precond_neg = [] ∧
      (flyAction pl fr dst).effect_add = [.At pl dst] ∧
      (flyAction pl fr dst).effect_rem = [.At pl fr]) ∧
    (∀ a, a ∈ air_cargo_p1.get_actions ↔
      (∃ ap ∈ air_cargo_p1.airports, ∃ pl ∈ air_cargo_p1.planes,
        ∃ c ∈ air_cargo_p1.cargos, a = loadAction c pl ap) ∨
      (∃ ap ∈ air_cargo_p1.airports, ∃ pl ∈ air_cargo_p1.planes,
        ∃ c ∈ air_cargo_p1.cargos, a = unloadAction c pl ap) ∨
      (∃ fr ∈ air_cargo_p1.airports, ∃ dst ∈ air_cargo_p1.airports,
        fr ≠ dst ∧ ∃ pl ∈ air_cargo_p1.planes, a = flyAction pl fr dst)) :=
  grounding_cardinality air_cargo_p1 (by decide) (by decide)

theorem dedup_map_injOn {α β : Type} [DecidableEq α] [DecidableEq β]
    (f : α → β) :
    ∀ (l : List α), (∀ x ∈ l, ∀ y ∈ l, f x = f y → x = y) →
      (l.map f).dedup = l.dedup.map f := by
  intro l
  induction l with
  | nil => intro _; simp
  | cons a l ih =>
    intro hinj
    have hinj' : ∀ x ∈ l, ∀ y ∈ l, f x = f y → x = y :=
      fun x hx y hy => hinj x (List.mem_cons_of_mem a hx) y
        (List.mem_cons_of_mem a hy)
    by_cases ha : a ∈ l
    · have hfa : f a ∈ l.map f := List.mem_map.mpr ⟨a, ha, rfl⟩
      rw [List.map_cons, List.dedup_cons_of_mem hfa,
        List.dedup_cons_of_mem ha, ih hinj']
    · have hfa : f a ∉ l.map f := by
        intro hmem
        obtain ⟨x, hx, hfx⟩ := List.mem_map.mp hmem
        have hxa : x = a := hinj x (List.mem_cons_of_mem a hx) a
          (List.mem_cons_self a l) hfx
        exact ha (hxa ▸ hx)
      rw [List.map_cons, List.dedup_cons_of_not_mem hfa,
        List.dedup_cons_of_not_mem ha, List.map_cons, ih hinj']

theorem h_ignore_eq_count (p : AirCargoProblem) (s : List Bool)
    (hinj : ∀ x ∈ p.state_map ++ p.goal, ∀ y ∈ p.state_map ++ p.goal,
      fluentStr x = fluentStr y → x = y) :
    p.h_ignore_preconditions s =
      ((decode_state s p.state_map).neg.dedup.filter
        (fun f => decide (f ∈ p.goal))).length := by
  have hnegsub : ∀ f ∈ (decode_state s p.state_map).neg, f ∈ p.state_map :=
    decode_neg_subset s p.state_map
  have hinjneg : ∀ x ∈ (decode_state s p.state_map).neg,
      ∀ y ∈ (decode_state s p.state_map).neg,
      fluentStr x = fluentStr y → x = y :=
    fun x hx y hy => hinj x (List.mem_append_left _ (hnegsub x hx)) y
      (List.mem_append_left _ (hnegsub y hy))
  unfold AirCargoProblem.h_ignore_preconditions
  rw [dedup_map_injOn fluentStr _ hinjneg]
  rw [List.filter_congr (q := fun st => decide (st ∈ p.goal.map fluentStr))
    (fun st _ => by simp [List.mem_dedup])]
  rw [List.filter_map fluentStr]
  rw [List.length_map]
  congr 1
  apply List.filter_congr
  intro x hx
  have hxsm : x ∈ p.state_map := hnegsub x (List.mem_dedup.mp hx)
  simp only [Function.comp_apply, decide_eq_decide]
  constructor
  · intro hmem
    obtain ⟨y, hy, hfy⟩ := List.mem_map.mp hmem
    have hxy : y = x := hinj y (List.mem_append_right _ hy) x
      (List.mem_append_left _ hxsm) hfy
    exact hxy ▸ hy
  · intro hmem
    exact List.mem_map.mpr ⟨x, hmem, rfl⟩

/-- C8: for every state s (when fluent renderings do not collide, as in
every scenario of the module), h_ignore_preconditions equals the number of
distinct fluents that are both in decode(s).negative and among the goal
fluents; in particular on P1's initial state it equals 2 and on the state
reached by P1's 6-action plan it equals 0. -/
theorem h_ignore_counts_unmet_goals (p : AirCargoProblem) (s : List Bool)
    (hinj : ∀ x ∈ p.state_map ++ p.goal, ∀ y ∈ p.state_map ++ p.goal,
      fluentStr x = fluentStr y → x = y) :
    p.h_ignore_preconditions s =
      ((decode_state s p.state_map).neg.dedup.filter
        (fun f => decide (f ∈ p.goal))).length ∧
    air_cargo_p1.h_ignore_preconditions p1_s0 = 2 ∧
    air_cargo_p1.h_ignore_preconditions p1_s6 = 0 :=
  ⟨h_ignore_eq_count p s hinj, by decide, by decide⟩

/-- C8 witness: instantiated on the P1 scenario and its initial state, whose
14 tracked and goal fluents render injectively. -/
theorem h_ignore_counts_unmet_goals_witness :
    air_cargo_p1.h_ignore_preconditions p1_s0 =
      ((decode_state p1_s0 air_cargo_p1.state_map).neg.dedup.filter
        (fun f => decide (f ∈ air_cargo_p1.goal))).length ∧
    air_cargo_p1.h_ignore_preconditions p1_s0 = 2 ∧
    air_cargo_p1.h_ignore_preconditions p1_s6 = 0 :=
  h_ignore_counts_unmet_goals air_cargo_p1 p1_s0 (by decide)

end AirCargo
